import Mathlib

/-
Verification of the per-tick simulation state machine of the traffic
simulation (src/Project/src/main.cpp): vehicle kinematics (speed,
heading, turn smoothing) and the traffic-signal timing automaton.

Floating-point scalars of the source are modelled as exact rationals;
the trigonometric functions used only for position integration are kept
abstract (parameters of the step function), since no verified property
depends on their values.
-/

namespace TrafficSim

/-- Signal colors, from TrafficLight.h as used in main.cpp. -/
inductive Signal where
  | Green
  | Yellow
  | Red
deriving DecidableEq, Repr

/-- Tick length in milliseconds (main.cpp line 26, updateInterval = 20). -/
def updateInterval : Int := 20

/-- maxSpeed = 0.5f (main.cpp line 46). -/
def maxSpeed : ℚ := 1/2

/-- acceleration = 0.01f (main.cpp line 47). -/
def acceleration : ℚ := 1/100

/-- deceleration = 0.005f (main.cpp line 48). -/
def deceleration : ℚ := 5/1000

/-- turnAcceleration = 0.2f (main.cpp line 52). -/
def turnAcceleration : ℚ := 2/10

/-- turnDeceleration = 0.1f (main.cpp line 53); declared in the source but
never read inside update(). -/
def turnDeceleration : ℚ := 1/10

/-- maxTurnSpeed = 6.0f (main.cpp line 54). -/
def maxTurnSpeed : ℚ := 6

/-- minTurnSpeed = 2.0f (main.cpp line 55). -/
def minTurnSpeed : ℚ := 2

/-- turnSpeedMultiplier = 1.0f (main.cpp line 56). -/
def turnSpeedMultiplier : ℚ := 1

/-- greenTime = 5000 (main.cpp line 653). -/
def greenTime : Int := 5000

/-- yellowTime = 1000 (main.cpp line 654). -/
def yellowTime : Int := 1000

/-- redTime = 6000 (main.cpp line 655). -/
def redTime : Int := 6000

/-- totalCycle = greenTime + yellowTime + redTime (main.cpp line 656). -/
def totalCycle : Int := greenTime + yellowTime + redTime

/-- A 3D vector with rational components, mirroring Vector3 of utility.h. -/
structure Vector3 where
  x : ℚ
  y : ℚ
  z : ℚ
deriving DecidableEq, Repr

/-- The mutable simulation state of main.cpp: the traffic-signal variables
(counter, NS_Signal, WE_Signal), the vehicle state (carPosition,
carDirection, carSpeed, turnInterpolation) and the four boolean input
flags. -/
structure SimState where
  counter : Int
  NS_Signal : Signal
  WE_Signal : Signal
  carPosition : Vector3
  carDirection : ℚ
  carSpeed : ℚ
  turnInterpolation : ℚ
  isMovingForward : Bool
  isMovingBackward : Bool
  isTurningLeft : Bool
  isTurningRight : Bool
deriving DecidableEq, Repr

/-- The initial values of the globals in main.cpp (lines 25, 36-61):
counter = 0, NS_Signal = Green, WE_Signal = Red, carPosition = (3,0,45),
carDirection = 180, carSpeed = 0, turnInterpolation = 0, all input flags
false. -/
def initState : SimState where
  counter := 0
  NS_Signal := Signal.Green
  WE_Signal := Signal.Red
  carPosition := { x := 3, y := 0, z := 45 }
  carDirection := 180
  carSpeed := 0
  turnInterpolation := 0
  isMovingForward := false
  isMovingBackward := false
  isTurningLeft := false
  isTurningRight := false

/-- The speed part of update() (main.cpp lines 587-598): accelerate toward
maxSpeed while forward is held, else toward -maxSpeed/2 while backward is
held, else decay toward 0 by deceleration without overshooting. -/
def speedStep (carSpeed : ℚ) (isMovingForward isMovingBackward : Bool) : ℚ :=
  if isMovingForward then
    min maxSpeed (carSpeed + acceleration)
  else if isMovingBackward then
    max (-maxSpeed / 2) (carSpeed - acceleration)
  else if carSpeed > 0 then
    max 0 (carSpeed - deceleration)
  else if carSpeed < 0 then
    min 0 (carSpeed + deceleration)
  else
    carSpeed

/-- The dynamic turn rate of update() (main.cpp lines 600-603): scales from
maxTurnSpeed at speed 0 down to minTurnSpeed at maxSpeed, times
turnSpeedMultiplier. -/
def currentTurnSpeed (carSpeed : ℚ) : ℚ :=
  let speedFactor := |carSpeed| / maxSpeed
  (minTurnSpeed + (maxTurnSpeed - minTurnSpeed) * (1 - speedFactor)) * turnSpeedMultiplier

/-- The turn-smoothing part of update() (main.cpp lines 605-612): the
interpolation ramps up by turnAcceleration (capped at 1) while a turn
input is held, and down by turnAcceleration (floored at 0) otherwise. -/
def turnStep (turnInterpolation : ℚ) (isTurningLeft isTurningRight : Bool) : ℚ :=
  if isTurningLeft || isTurningRight then
    min 1 (turnInterpolation + turnAcceleration)
  else
    max 0 (turnInterpolation - turnAcceleration)

/-- Normalization of the heading into [0, 360): the combined effect of the
two while loops of main.cpp lines 626-629 (repeatedly subtract 360 while
at least 360, then repeatedly add 360 while negative), which compute the
remainder of the angle modulo 360. -/
def wrap360 (d : ℚ) : ℚ := d - 360 * ⌊d / 360⌋

/-- The heading part of update() (main.cpp lines 614-630): when the (new)
turn interpolation is positive, add the turn amount for a held left input,
subtract it for a held right input, then normalize into [0, 360); otherwise
the heading is untouched.  Takes the new interpolation and the new speed,
as in the source. -/
def directionStep (carDirection turnInterpolation carSpeed : ℚ)
    (isTurningLeft isTurningRight : Bool) : ℚ :=
  if turnInterpolation > 0 then
    let turnAmount := currentTurnSpeed carSpeed * turnInterpolation
    let d1 := if isTurningLeft then carDirection + turnAmount else carDirection
    let d2 := if isTurningRight then d1 - turnAmount else d1
    wrap360 d2
  else
    carDirection

/-- The counter part of update() (main.cpp lines 651-660): add the tick
length, then wrap to 0 when the total cycle length is reached. -/
def counterStep (counter : Int) : Int :=
  let c := counter + updateInterval
  if c ≥ totalCycle then 0 else c

/-- The North-South signal as a function of the (new) counter (main.cpp
lines 662-676). -/
def nsSignal (counter : Int) : Signal :=
  if counter < greenTime then Signal.Green
  else if counter < greenTime + yellowTime then Signal.Yellow
  else Signal.Red

/-- The West-East signal as a function of the (new) counter (main.cpp
lines 662-676): Red during the North-South green and yellow phases, then
Green, overridden to Yellow strictly after totalCycle - yellowTime. -/
def weSignal (counter : Int) : Signal :=
  if counter < greenTime then Signal.Red
  else if counter < greenTime + yellowTime then Signal.Red
  else if counter > totalCycle - yellowTime then Signal.Yellow
  else Signal.Green

/-- One call of update() (main.cpp lines 583-677).  The position update
uses the speed already updated this tick and the heading from before this
tick (angleRadians is computed at function entry); sinDeg and cosDeg stand
for the composition of the C library sin/cos with the degree-to-radian
conversion and are kept abstract. -/
def update (sinDeg cosDeg : ℚ → ℚ) (s : SimState) : SimState :=
  let carSpeed' := speedStep s.carSpeed s.isMovingForward s.isMovingBackward
  let turnInterpolation' := turnStep s.turnInterpolation s.isTurningLeft s.isTurningRight
  let carDirection' :=
    directionStep s.carDirection turnInterpolation' carSpeed' s.isTurningLeft s.isTurningRight
  let counter' := counterStep s.counter
  { s with
    carSpeed := carSpeed'
    turnInterpolation := turnInterpolation'
    carDirection := carDirection'
    carPosition :=
      { s.carPosition with
        x := s.carPosition.x + carSpeed' * sinDeg s.carDirection
        z := s.carPosition.z + carSpeed' * cosDeg s.carDirection }
    counter := counter'
    NS_Signal := nsSignal counter'
    WE_Signal := weSignal counter' }

/-- The brake command: keyboard() case b (main.cpp lines 566-571) zeroes
the speed and clears the forward and backward flags, touching nothing
else. -/
def brake (s : SimState) : SimState :=
  { s with carSpeed := 0, isMovingForward := false, isMovingBackward := false }

/-- One tick's worth of sampled input flags (set by specialKey and
specialKeyUp before the timer fires). -/
structure Inputs where
  isMovingForward : Bool
  isMovingBackward : Bool
  isTurningLeft : Bool
  isTurningRight : Bool
deriving DecidableEq, Repr

/-- Install the sampled input flags into the state (the effect of the
specialKey and specialKeyUp callbacks between ticks). -/
def setInputs (i : Inputs) (s : SimState) : SimState :=
  { s with
    isMovingForward := i.isMovingForward
    isMovingBackward := i.isMovingBackward
    isTurningLeft := i.isTurningLeft
    isTurningRight := i.isTurningRight }

/-- One simulation tick: the input flags sampled for this tick take
effect, then update() runs once. -/
def tick (sinDeg cosDeg : ℚ → ℚ) (i : Inputs) (s : SimState) : SimState :=
  update sinDeg cosDeg (setInputs i s)

/-- Run a sequence of ticks, one entry of input flags per tick. -/
def run (sinDeg cosDeg : ℚ → ℚ) : List Inputs → SimState → SimState
  | [], s => s
  | i :: rest, s => run sinDeg cosDeg rest (tick sinDeg cosDeg i s)

/-- The all-released input sample. -/
def noInput : Inputs where
  isMovingForward := false
  isMovingBackward := false
  isTurningLeft := false
  isTurningRight := false

/-- A concrete stand-in for the abstract trigonometric functions, used
only to instantiate witnesses. -/
def zeroFun : ℚ → ℚ := fun _ => 0

section Helpers

variable (f g : ℚ → ℚ)

/-- The counter of a tick depends only on the previous counter. -/
lemma tick_counter (i : Inputs) (s : SimState) :
    (tick f g i s).counter = counterStep s.counter := rfl

/-- The North-South signal of a tick is computed from the new counter. -/
lemma tick_NS (i : Inputs) (s : SimState) :
    (tick f g i s).NS_Signal = nsSignal (counterStep s.counter) := rfl

/-- The West-East signal of a tick is computed from the new counter. -/
lemma tick_WE (i : Inputs) (s : SimState) :
    (tick f g i s).WE_Signal = weSignal (counterStep s.counter) := rfl

/-- The speed of a tick depends only on the previous speed and the
sampled forward and backward flags. -/
lemma tick_carSpeed (i : Inputs) (s : SimState) :
    (tick f g i s).carSpeed = speedStep s.carSpeed i.isMovingForward i.isMovingBackward := rfl

/-- The turn interpolation of a tick depends only on the previous
interpolation and the sampled turn flags. -/
lemma tick_turnInterpolation (i : Inputs) (s : SimState) :
    (tick f g i s).turnInterpolation =
      turnStep s.turnInterpolation i.isTurningLeft i.isTurningRight := rfl

/-- Unfolding lemma for a run of one more tick. -/
lemma run_cons (i : Inputs) (l : List Inputs) (s : SimState) :
    run f g (i :: l) s = run f g l (tick f g i s) := rfl

/-- The counter after a run is the counter step iterated once per tick. -/
lemma run_counter (l : List Inputs) (s : SimState) :
    (run f g l s).counter = counterStep^[l.length] s.counter := by
  induction l generalizing s with
  | nil => rfl
  | cons i rest ih =>
      rw [run_cons, ih, tick_counter, List.length_cons,
        ← Function.iterate_succ_apply]

/-- A state whose signal fields agree with the signal functions of its
counter.  The initial state satisfies this, and every update
re-establishes it. -/
def signalsCoherent (s : SimState) : Prop :=
  s.NS_Signal = nsSignal s.counter ∧ s.WE_Signal = weSignal s.counter

lemma initState_signalsCoherent : signalsCoherent initState := by
  constructor <;> rfl

lemma tick_signalsCoherent (i : Inputs) (s : SimState) :
    signalsCoherent (tick f g i s) := by
  constructor <;> rfl

lemma run_signalsCoherent (l : List Inputs) (s : SimState)
    (h : signalsCoherent s) : signalsCoherent (run f g l s) := by
  induction l generalizing s with
  | nil => exact h
  | cons i rest ih => exact ih _ (tick_signalsCoherent f g i s)

/-- The counter values reached from 0 in at most 599 ticks: 20 ms per
tick, no wrap yet. -/
lemma counterStep_iterate (n : ℕ) (h : n ≤ 599) :
    counterStep^[n] (0 : Int) = 20 * n := by
  induction n with
  | zero => simp
  | succ m ih =>
      rw [Function.iterate_succ_apply', ih (by omega)]
      unfold counterStep updateInterval totalCycle greenTime yellowTime redTime
      simp only []
      rw [if_neg (by push_cast; omega)]
      push_cast
      ring

/-- The 600th tick wraps the counter back to 0. -/
lemma counterStep_iterate_600 : counterStep^[600] (0 : Int) = 0 := by
  rw [show (600 : ℕ) = 599 + 1 from rfl, Function.iterate_succ_apply',
    counterStep_iterate 599 (by omega)]
  rfl

/-- Whatever the counter, the signal pair produced by update() has exactly
one non-Red approach. -/
lemma signal_pair_exclusive (c : Int) :
    (nsSignal c ≠ Signal.Red ∧ weSignal c = Signal.Red) ∨
      (nsSignal c = Signal.Red ∧ weSignal c ≠ Signal.Red) := by
  unfold nsSignal weSignal
  split_ifs <;> simp_all

/-- wrap360 never returns a negative heading. -/
lemma wrap360_nonneg (d : ℚ) : 0 ≤ wrap360 d := by
  unfold wrap360
  have h : (360 : ℚ) * ⌊d / 360⌋ ≤ 360 * (d / 360) := by
    have := Int.floor_le (d / 360)
    nlinarith
  nlinarith

/-- wrap360 always returns a heading below 360. -/
lemma wrap360_lt (d : ℚ) : wrap360 d < 360 := by
  unfold wrap360
  have h : d / 360 < ⌊d / 360⌋ + 1 := Int.lt_floor_add_one (d / 360)
  nlinarith

/-- wrap360 is the identity on headings already in range. -/
lemma wrap360_eq_self (d : ℚ) (h0 : 0 ≤ d) (h1 : d < 360) : wrap360 d = d := by
  unfold wrap360
  have hfloor : ⌊d / 360⌋ = 0 := by
    rw [Int.floor_eq_zero_iff]
    constructor
    · positivity
    · rw [div_lt_one (by norm_num)]; simpa using h1
  rw [hfloor]
  ring

/-- The heading step always lands in [0, 360) when the previous heading
was in [0, 360). -/
lemma directionStep_mem (d t sp : ℚ) (l r : Bool) (h0 : 0 ≤ d) (h1 : d < 360) :
    0 ≤ directionStep d t sp l r ∧ directionStep d t sp l r < 360 := by
  unfold directionStep
  split_ifs <;>
    first
      | exact ⟨wrap360_nonneg _, wrap360_lt _⟩
      | exact ⟨h0, h1⟩

/-- The speed step keeps the speed inside [-maxSpeed/2, maxSpeed]. -/
lemma speedStep_mem (s : ℚ) (fwd bwd : Bool)
    (h0 : -maxSpeed / 2 ≤ s) (h1 : s ≤ maxSpeed) :
    -maxSpeed / 2 ≤ speedStep s fwd bwd ∧ speedStep s fwd bwd ≤ maxSpeed := by
  unfold speedStep
  unfold maxSpeed acceleration deceleration at *
  split_ifs with hf hb hpos hneg
  · constructor
    · rw [le_min_iff]; constructor <;> linarith
    · exact min_le_left _ _
  · constructor
    · exact le_max_left _ _
    · rw [max_le_iff]; constructor <;> linarith
  · constructor
    · rw [le_max_iff]; left; linarith
    · rw [max_le_iff]; constructor <;> linarith
  · constructor
    · rw [le_min_iff]; constructor <;> linarith
    · rw [min_le_iff]; left; linarith
  · exact ⟨h0, h1⟩

/-- The turn-interpolation step keeps the interpolation inside [0, 1]. -/
lemma turnStep_mem (t : ℚ) (l r : Bool) (h0 : 0 ≤ t) (h1 : t ≤ 1) :
    0 ≤ turnStep t l r ∧ turnStep t l r ≤ 1 := by
  unfold turnStep turnAcceleration
  split_ifs
  · constructor
    · rw [le_min_iff]; constructor <;> linarith
    · exact min_le_left _ _
  · constructor
    · exact le_max_left _ _
    · rw [max_le_iff]; constructor <;> linarith

/-- The turn-interpolation step while a turn input is held. -/
def heldStep (t : ℚ) : ℚ := min 1 (t + turnAcceleration)

/-- The turn-interpolation step while both turn inputs are released. -/
def releasedStep (t : ℚ) : ℚ := max 0 (t - turnAcceleration)

lemma turnStep_of_held (t : ℚ) (l r : Bool) (h : (l || r) = true) :
    turnStep t l r = heldStep t := by
  unfold turnStep heldStep
  rw [if_pos h]

lemma turnStep_of_released (t : ℚ) : turnStep t false false = releasedStep t := rfl

/-- The interpolation after a run of identical input samples is the
single-tick interpolation step iterated. -/
lemma run_replicate_turnInterpolation (f g : ℚ → ℚ) (i : Inputs) (n : ℕ)
    (s : SimState) :
    (run f g (List.replicate n i) s).turnInterpolation =
      (fun t => turnStep t i.isTurningLeft i.isTurningRight)^[n] s.turnInterpolation := by
  induction n generalizing s with
  | zero => rfl
  | succ m ih =>
      rw [List.replicate_succ, run_cons, ih, tick_turnInterpolation,
        ← Function.iterate_succ_apply]

lemma heldStep_mem (t : ℚ) (h0 : 0 ≤ t) (h1 : t ≤ 1) :
    0 ≤ heldStep t ∧ heldStep t ≤ 1 := by
  rw [← turnStep_of_held t true true rfl]
  exact turnStep_mem t true true h0 h1

lemma releasedStep_mem (t : ℚ) (h0 : 0 ≤ t) (h1 : t ≤ 1) :
    0 ≤ releasedStep t ∧ releasedStep t ≤ 1 := by
  rw [← turnStep_of_released t]
  exact turnStep_mem t false false h0 h1

lemma heldStep_iterate_mem (n : ℕ) (t : ℚ) (h0 : 0 ≤ t) (h1 : t ≤ 1) :
    0 ≤ heldStep^[n] t ∧ heldStep^[n] t ≤ 1 := by
  induction n generalizing t with
  | zero => exact ⟨h0, h1⟩
  | succ m ih =>
      rw [Function.iterate_succ_apply]
      exact ih _ (heldStep_mem t h0 h1).1 (heldStep_mem t h0 h1).2

lemma releasedStep_iterate_mem (n : ℕ) (t : ℚ) (h0 : 0 ≤ t) (h1 : t ≤ 1) :
    0 ≤ releasedStep^[n] t ∧ releasedStep^[n] t ≤ 1 := by
  induction n generalizing t with
  | zero => exact ⟨h0, h1⟩
  | succ m ih =>
      rw [Function.iterate_succ_apply]
      exact ih _ (releasedStep_mem t h0 h1).1 (releasedStep_mem t h0 h1).2

lemma le_heldStep (t : ℚ) (h1 : t ≤ 1) : t ≤ heldStep t := by
  unfold heldStep turnAcceleration
  rw [le_min_iff]
  constructor <;> linarith

lemma releasedStep_le (t : ℚ) (h0 : 0 ≤ t) : releasedStep t ≤ t := by
  unfold releasedStep turnAcceleration
  rw [max_le_iff]
  constructor <;> linarith

/-- Holding a turn input long enough saturates the interpolation at 1. -/
lemma heldStep_iterate_one (n : ℕ) (t : ℚ) (h0 : 0 ≤ t) (h1 : t ≤ 1)
    (h : 1 ≤ t + n * turnAcceleration) : heldStep^[n] t = 1 := by
  induction n generalizing t with
  | zero =>
      simp only [Function.iterate_zero, id_eq]
      simp only [Nat.cast_zero, zero_mul, add_zero] at h
      linarith
  | succ m ih =>
      rw [Function.iterate_succ_apply]
      rcases min_cases 1 (t + turnAcceleration) with ⟨heq, hle⟩ | ⟨heq, hle⟩
      · have hmem := heldStep_mem t h0 h1
        refine ih (heldStep t) hmem.1 hmem.2 ?_
        unfold heldStep
        rw [heq]
        unfold turnAcceleration
        have : (0 : ℚ) ≤ m * (2 / 10) := by positivity
        linarith
      · have hmem := heldStep_mem t h0 h1
        refine ih (heldStep t) hmem.1 hmem.2 ?_
        unfold heldStep
        rw [heq]
        push_cast at h ⊢
        unfold turnAcceleration at h ⊢
        linarith

/-- Releasing the turn inputs long enough drains the interpolation to 0. -/
lemma releasedStep_iterate_zero (n : ℕ) (t : ℚ) (h0 : 0 ≤ t) (h1 : t ≤ 1)
    (h : t - n * turnAcceleration ≤ 0) : releasedStep^[n] t = 0 := by
  induction n generalizing t with
  | zero =>
      simp only [Function.iterate_zero, id_eq]
      simp only [Nat.cast_zero, zero_mul, sub_zero] at h
      linarith
  | succ m ih =>
      rw [Function.iterate_succ_apply]
      rcases max_cases 0 (t - turnAcceleration) with ⟨heq, hle⟩ | ⟨heq, hle⟩
      · have hmem := releasedStep_mem t h0 h1
        refine ih (releasedStep t) hmem.1 hmem.2 ?_
        unfold releasedStep
        rw [heq]
        unfold turnAcceleration
        have : (0 : ℚ) ≤ m * (2 / 10) := by positivity
        linarith
      · have hmem := releasedStep_mem t h0 h1
        refine ih (releasedStep t) hmem.1 hmem.2 ?_
        unfold releasedStep
        rw [heq]
        push_cast at h ⊢
        unfold turnAcceleration at h ⊢
        linarith

/-- The heading of a tick is computed from the previous heading, the new
interpolation and the new speed. -/
lemma tick_carDirection (f g : ℚ → ℚ) (i : Inputs) (s : SimState) :
    (tick f g i s).carDirection =
      directionStep s.carDirection
        (turnStep s.turnInterpolation i.isTurningLeft i.isTurningRight)
        (speedStep s.carSpeed i.isMovingForward i.isMovingBackward)
        i.isTurningLeft i.isTurningRight := rfl

/-- Speed bounds are preserved along any run. -/
lemma run_carSpeed_mem (f g : ℚ → ℚ) (l : List Inputs) (s : SimState)
    (h0 : -maxSpeed / 2 ≤ s.carSpeed) (h1 : s.carSpeed ≤ maxSpeed) :
    -maxSpeed / 2 ≤ (run f g l s).carSpeed ∧ (run f g l s).carSpeed ≤ maxSpeed := by
  induction l generalizing s with
  | nil => exact ⟨h0, h1⟩
  | cons i rest ih =>
      rw [run_cons]
      have hmem := speedStep_mem s.carSpeed i.isMovingForward i.isMovingBackward h0 h1
      exact ih _ (by rw [tick_carSpeed]; exact hmem.1) (by rw [tick_carSpeed]; exact hmem.2)

/-- Heading bounds are preserved along any run. -/
lemma run_carDirection_mem (f g : ℚ → ℚ) (l : List Inputs) (s : SimState)
    (h0 : 0 ≤ s.carDirection) (h1 : s.carDirection < 360) :
    0 ≤ (run f g l s).carDirection ∧ (run f g l s).carDirection < 360 := by
  induction l generalizing s with
  | nil => exact ⟨h0, h1⟩
  | cons i rest ih =>
      rw [run_cons]
      have hmem := directionStep_mem s.carDirection
        (turnStep s.turnInterpolation i.isTurningLeft i.isTurningRight)
        (speedStep s.carSpeed i.isMovingForward i.isMovingBackward)
        i.isTurningLeft i.isTurningRight h0 h1
      exact ih _ (by rw [tick_carDirection]; exact hmem.1)
        (by rw [tick_carDirection]; exact hmem.2)

end Helpers

/-- C1: in every state reachable by any number of update() ticks from the
initial state (NS = Green, WE = Red), exactly one of the two approach
signals is non-Red, and in particular they are never both Green. -/
theorem signal_mutual_exclusion (f g : ℚ → ℚ) (l : List Inputs) :
    (((run f g l initState).NS_Signal ≠ Signal.Red ∧
        (run f g l initState).WE_Signal = Signal.Red) ∨
      ((run f g l initState).NS_Signal = Signal.Red ∧
        (run f g l initState).WE_Signal ≠ Signal.Red)) ∧
    ¬((run f g l initState).NS_Signal = Signal.Green ∧
        (run f g l initState).WE_Signal = Signal.Green) := by
  have hco := run_signalsCoherent f g l initState initState_signalsCoherent
  rw [hco.1, hco.2]
  have hx := signal_pair_exclusive (run f g l initState).counter
  refine ⟨hx, ?_⟩
  rintro ⟨hns, hwe⟩
  rcases hx with ⟨-, h⟩ | ⟨h, -⟩
  · rw [hwe] at h; exact Signal.noConfusion h
  · rw [hns] at h; exact Signal.noConfusion h

/-- C3: running exactly one full signal cycle (600 ticks of 20 ms =
12000 ms) from the initial state brings the whole signal state (counter,
NS_Signal, WE_Signal) back to its initial value, whatever the inputs. -/
theorem signal_cycle_closure (f g : ℚ → ℚ) (l : List Inputs)
    (h : l.length = 600) :
    (run f g l initState).counter = initState.counter ∧
    (run f g l initState).NS_Signal = initState.NS_Signal ∧
    (run f g l initState).WE_Signal = initState.WE_Signal := by
  have hc : (run f g l initState).counter = 0 := by
    rw [run_counter, h]
    exact counterStep_iterate_600
  have hco := run_signalsCoherent f g l initState initState_signalsCoherent
  refine ⟨hc, ?_, ?_⟩
  · rw [hco.1, hc]; rfl
  · rw [hco.2, hc]; rfl

/-- Witness for C3 at the concrete input of 600 all-released ticks. -/
theorem signal_cycle_closure_witness :
    (run zeroFun zeroFun (List.replicate 600 noInput) initState).counter =
        initState.counter ∧
    (run zeroFun zeroFun (List.replicate 600 noInput) initState).NS_Signal =
        initState.NS_Signal ∧
    (run zeroFun zeroFun (List.replicate 600 noInput) initState).WE_Signal =
        initState.WE_Signal :=
  signal_cycle_closure zeroFun zeroFun (List.replicate 600 noInput)
    (by rw [List.length_replicate])

/-- C4: along any sequence of ticks with arbitrary input flags, from any
speed within bounds, the speed stays within [-maxSpeed/2, maxSpeed]. -/
theorem speed_bounded (f g : ℚ → ℚ) (l : List Inputs) (s : SimState)
    (h0 : -maxSpeed / 2 ≤ s.carSpeed) (h1 : s.carSpeed ≤ maxSpeed) :
    -maxSpeed / 2 ≤ (run f g l s).carSpeed ∧ (run f g l s).carSpeed ≤ maxSpeed :=
  run_carSpeed_mem f g l s h0 h1

/-- Witness for C4 at the initial state with one tick of forward input. -/
theorem speed_bounded_witness :
    -maxSpeed / 2 ≤
        (run zeroFun zeroFun [⟨true, false, false, false⟩] initState).carSpeed ∧
    (run zeroFun zeroFun [⟨true, false, false, false⟩] initState).carSpeed ≤
        maxSpeed :=
  speed_bounded zeroFun zeroFun [⟨true, false, false, false⟩] initState
    (by norm_num [initState, maxSpeed]) (by norm_num [initState, maxSpeed])

/-- C5: along any sequence of ticks with arbitrary input flags starting
from the initial heading of 180 degrees, the heading stays in [0, 360). -/
theorem heading_normalized (f g : ℚ → ℚ) (l : List Inputs) :
    0 ≤ (run f g l initState).carDirection ∧
      (run f g l initState).carDirection < 360 :=
  run_carDirection_mem f g l initState (by norm_num [initState]) (by norm_num [initState])

/-- C2 counterexample: at the 550th tick from the initial state the new
counter is exactly 11000 = totalCycle - yellowTime, which lies in the
claimed interval [11000, 12000), yet update() leaves the West-East signal
Green, not Yellow, because the source guards the yellow override with a
strict comparison. -/
theorem phase4_boundary_counterexample :
    (run zeroFun zeroFun (List.replicate 550 noInput) initState).counter =
        totalCycle - yellowTime ∧
    (run zeroFun zeroFun (List.replicate 550 noInput) initState).counter <
        totalCycle ∧
    (run zeroFun zeroFun (List.replicate 550 noInput) initState).NS_Signal =
        Signal.Red ∧
    (run zeroFun zeroFun (List.replicate 550 noInput) initState).WE_Signal =
        Signal.Green ∧
    (run zeroFun zeroFun (List.replicate 550 noInput) initState).WE_Signal ≠
        Signal.Yellow := by
  have hc : (run zeroFun zeroFun (List.replicate 550 noInput) initState).counter = 11000 := by
    rw [run_counter, List.length_replicate]
    show counterStep^[550] (0 : Int) = 11000
    rw [counterStep_iterate 550 (by omega)]
    norm_num
  have hco := run_signalsCoherent zeroFun zeroFun (List.replicate 550 noInput)
    initState initState_signalsCoherent
  refine ⟨by rw [hc]; decide, by rw [hc]; decide, ?_, ?_, ?_⟩
  · rw [hco.1, hc]; decide
  · rw [hco.2, hc]; decide
  · rw [hco.2, hc]; decide

/-- Counters strictly beyond the phase-3 end give a Red North-South
signal. -/
lemma nsSignal_phase4 (c : Int) (h1 : 11000 < c) : nsSignal c = Signal.Red := by
  have hg : greenTime = 5000 := rfl
  have hy : yellowTime = 1000 := rfl
  unfold nsSignal
  rw [if_neg (by omega), if_neg (by omega)]

/-- Counters strictly beyond the phase-3 end give a Yellow West-East
signal. -/
lemma weSignal_phase4 (c : Int) (h1 : 11000 < c) : weSignal c = Signal.Yellow := by
  have hg : greenTime = 5000 := rfl
  have hy : yellowTime = 1000 := rfl
  have ht : totalCycle = 12000 := rfl
  unfold weSignal
  rw [if_neg (by omega), if_neg (by omega), if_pos (by omega)]

/-- C2 amended: update() sets approach A Red and approach B Yellow for
every tick whose new counter lies strictly inside
(totalCycle - yellowTime, totalCycle); at counter = totalCycle - yellowTime
exactly, approach B is still Green. -/
theorem phase4_yellow (f g : ℚ → ℚ) (s : SimState)
    (h1 : totalCycle - yellowTime < (update f g s).counter)
    (_h2 : (update f g s).counter < totalCycle) :
    (update f g s).NS_Signal = Signal.Red ∧
    (update f g s).WE_Signal = Signal.Yellow := by
  have hns : (update f g s).NS_Signal = nsSignal ((update f g s).counter) := rfl
  have hwe : (update f g s).WE_Signal = weSignal ((update f g s).counter) := rfl
  unfold totalCycle greenTime yellowTime redTime at h1
  norm_num at h1
  rw [hns, hwe]
  exact ⟨nsSignal_phase4 _ h1, weSignal_phase4 _ h1⟩

/-- Witness for the amended C2: from counter = 11000, one update lands at
11020, strictly inside phase 4, and the West-East signal is Yellow. -/
theorem phase4_yellow_witness :
    totalCycle - yellowTime <
        (update zeroFun zeroFun { initState with counter := 11000 }).counter ∧
    (update zeroFun zeroFun { initState with counter := 11000 }).WE_Signal =
        Signal.Yellow :=
  ⟨by decide,
    (phase4_yellow zeroFun zeroFun { initState with counter := 11000 }
      (by decide) (by decide)).2⟩

/-- C6: from any interpolation in [0, 1], holding a turn input gives a
non-decreasing interpolation sequence that reaches 1 by the 5th tick and
stays there, and releasing both turn inputs gives a non-increasing
sequence that reaches 0 by the 5th tick and stays there. -/
theorem turn_smoothing (f g : ℚ → ℚ) (s : SimState)
    (h0 : 0 ≤ s.turnInterpolation) (h1 : s.turnInterpolation ≤ 1) :
    (∀ i : Inputs, (i.isTurningLeft || i.isTurningRight) = true →
      (∀ n : ℕ, (run f g (List.replicate n i) s).turnInterpolation ≤
          (run f g (List.replicate (n + 1) i) s).turnInterpolation) ∧
      ∀ n : ℕ, 5 ≤ n → (run f g (List.replicate n i) s).turnInterpolation = 1) ∧
    (∀ i : Inputs, i.isTurningLeft = false → i.isTurningRight = false →
      (∀ n : ℕ, (run f g (List.replicate (n + 1) i) s).turnInterpolation ≤
          (run f g (List.replicate n i) s).turnInterpolation) ∧
      ∀ n : ℕ, 5 ≤ n → (run f g (List.replicate n i) s).turnInterpolation = 0) := by
  constructor
  · intro i hi
    have hfun : (fun t => turnStep t i.isTurningLeft i.isTurningRight) = heldStep := by
      funext t; exact turnStep_of_held t _ _ hi
    constructor
    · intro n
      rw [run_replicate_turnInterpolation, run_replicate_turnInterpolation, hfun,
        Function.iterate_succ_apply']
      exact le_heldStep _ (heldStep_iterate_mem n s.turnInterpolation h0 h1).2
    · intro n hn
      rw [run_replicate_turnInterpolation, hfun]
      refine heldStep_iterate_one n s.turnInterpolation h0 h1 ?_
      unfold turnAcceleration
      have hcast : (5 : ℚ) ≤ n := by exact_mod_cast hn
      linarith
  · intro i hl hr
    have hfun : (fun t => turnStep t i.isTurningLeft i.isTurningRight) = releasedStep := by
      funext t; rw [hl, hr]; rfl
    constructor
    · intro n
      rw [run_replicate_turnInterpolation, run_replicate_turnInterpolation, hfun,
        Function.iterate_succ_apply']
      exact releasedStep_le _ (releasedStep_iterate_mem n s.turnInterpolation h0 h1).1
    · intro n hn
      rw [run_replicate_turnInterpolation, hfun]
      refine releasedStep_iterate_zero n s.turnInterpolation h0 h1 ?_
      unfold turnAcceleration
      have hcast : (5 : ℚ) ≤ n := by exact_mod_cast hn
      linarith

/-- Witness for C6: from the initial state, 5 held left-turn ticks
saturate the interpolation at 1. -/
theorem turn_smoothing_witness :
    (run zeroFun zeroFun (List.replicate 5 ⟨false, false, true, false⟩)
        initState).turnInterpolation = 1 :=
  ((turn_smoothing zeroFun zeroFun initState (by norm_num [initState])
      (by norm_num [initState])).1
    ⟨false, false, true, false⟩ rfl).2 5 (by norm_num)

/-- C7: from the initial signal state, the North-South signal is Green
after each of the first 249 ticks and turns Yellow exactly at the 250th
tick, where the counter reads 5000 ms. -/
theorem green_to_yellow_at_250 (f g : ℚ → ℚ) (i : Inputs) (n : ℕ)
    (h1 : 1 ≤ n) (h2 : n ≤ 249) :
    (run f g (List.replicate n i) initState).NS_Signal = Signal.Green ∧
    (run f g (List.replicate 250 i) initState).NS_Signal = Signal.Yellow ∧
    (run f g (List.replicate 250 i) initState).counter = 5000 := by
  have hc : ∀ m : ℕ, m ≤ 599 →
      (run f g (List.replicate m i) initState).counter = 20 * m := by
    intro m hm
    rw [run_counter, List.length_replicate]
    exact counterStep_iterate m hm
  have hco : ∀ m : ℕ, signalsCoherent (run f g (List.replicate m i) initState) :=
    fun m => run_signalsCoherent f g _ _ initState_signalsCoherent
  refine ⟨?_, ?_, ?_⟩
  · rw [(hco n).1, hc n (by omega)]
    unfold nsSignal greenTime
    rw [if_pos (by omega)]
  · rw [(hco 250).1, hc 250 (by omega)]
    decide
  · rw [hc 250 (by omega)]
    norm_num

/-- Witness for C7 at its first tick. -/
theorem green_to_yellow_at_250_witness :
    (run zeroFun zeroFun (List.replicate 1 noInput) initState).NS_Signal =
        Signal.Green ∧
    (run zeroFun zeroFun (List.replicate 250 noInput) initState).NS_Signal =
        Signal.Yellow ∧
    (run zeroFun zeroFun (List.replicate 250 noInput) initState).counter = 5000 :=
  green_to_yellow_at_250 zeroFun zeroFun noInput 1 (by norm_num) (by norm_num)

/-- C8: the brake command zeroes the speed and clears the forward and
backward flags, and leaves position, heading, turn interpolation, turn
flags and the whole signal state untouched. -/
theorem brake_frame (s : SimState) :
    (brake s).carSpeed = 0 ∧
    (brake s).isMovingForward = false ∧
    (brake s).isMovingBackward = false ∧
    (brake s).carPosition = s.carPosition ∧
    (brake s).carDirection = s.carDirection ∧
    (brake s).turnInterpolation = s.turnInterpolation ∧
    (brake s).isTurningLeft = s.isTurningLeft ∧
    (brake s).isTurningRight = s.isTurningRight ∧
    (brake s).counter = s.counter ∧
    (brake s).NS_Signal = s.NS_Signal ∧
    (brake s).WE_Signal = s.WE_Signal :=
  ⟨rfl, rfl, rfl, rfl, rfl, rfl, rfl, rfl, rfl, rfl, rfl⟩

/-- With both turn inputs held, the added and subtracted turn amounts
cancel exactly and the wrap leaves an in-range heading unchanged. -/
lemma directionStep_both (d t sp : ℚ) (h0 : 0 ≤ d) (h1 : d < 360) :
    directionStep d t sp true true = d := by
  unfold directionStep
  split_ifs with ht htt
  · show wrap360 (d + currentTurnSpeed sp * t - currentTurnSpeed sp * t) = d
    rw [add_sub_cancel_right]
    exact wrap360_eq_self d h0 h1
  · exact absurd rfl htt
  · show d = d
    rfl

/-- C9: with both turn inputs held and an in-range heading, one update()
leaves the heading unchanged while the turn interpolation still ramps
toward 1 by the turn-acceleration step. -/
theorem both_turns_cancel (f g : ℚ → ℚ) (s : SimState)
    (hl : s.isTurningLeft = true) (hr : s.isTurningRight = true)
    (h0 : 0 ≤ s.carDirection) (h1 : s.carDirection < 360) :
    (update f g s).carDirection = s.carDirection ∧
    (update f g s).turnInterpolation =
      min 1 (s.turnInterpolation + turnAcceleration) := by
  constructor
  · have hdir : (update f g s).carDirection =
        directionStep s.carDirection
          (turnStep s.turnInterpolation s.isTurningLeft s.isTurningRight)
          (speedStep s.carSpeed s.isMovingForward s.isMovingBackward)
          s.isTurningLeft s.isTurningRight := rfl
    rw [hdir, hl, hr]
    exact directionStep_both _ _ _ h0 h1
  · have hti : (update f g s).turnInterpolation =
        turnStep s.turnInterpolation s.isTurningLeft s.isTurningRight := rfl
    rw [hti, hl, hr]
    rfl

/-- The initial state with both turn inputs held, used as a witness
input. -/
def bothTurnsState : SimState :=
  { initState with isTurningLeft := true, isTurningRight := true }

/-- Witness for C9 at the initial state with both turn inputs held. -/
theorem both_turns_cancel_witness :
    (update zeroFun zeroFun bothTurnsState).carDirection =
        bothTurnsState.carDirection ∧
    (update zeroFun zeroFun bothTurnsState).turnInterpolation =
        min 1 (bothTurnsState.turnInterpolation + turnAcceleration) :=
  both_turns_cancel zeroFun zeroFun bothTurnsState rfl rfl
    (by norm_num [bothTurnsState, initState]) (by norm_num [bothTurnsState, initState])

/-- C10: with both the forward and the backward flag held, update() takes
only the forward branch: the new speed is the clamped accelerated speed,
identical to what it would be with the backward flag cleared, so neither
the backward branch nor the friction decay runs. -/
theorem forward_priority (f g : ℚ → ℚ) (s : SimState)
    (hf : s.isMovingForward = true) (_hb : s.isMovingBackward = true) :
    (update f g s).carSpeed = min maxSpeed (s.carSpeed + acceleration) ∧
    (update f g s).carSpeed =
      (update f g { s with isMovingBackward := false }).carSpeed := by
  have h1 : (update f g s).carSpeed =
      speedStep s.carSpeed s.isMovingForward s.isMovingBackward := rfl
  have h2 : (update f g { s with isMovingBackward := false }).carSpeed =
      speedStep s.carSpeed s.isMovingForward false := rfl
  rw [h1, h2, hf]
  exact ⟨rfl, rfl⟩

/-- The initial state with both motion inputs held, used as a witness
input. -/
def bothMoveState : SimState :=
  { initState with isMovingForward := true, isMovingBackward := true }

/-- Witness for C10 at the initial state with both motion inputs held. -/
theorem forward_priority_witness :
    (update zeroFun zeroFun bothMoveState).carSpeed =
      min maxSpeed (bothMoveState.carSpeed + acceleration) :=
  (forward_priority zeroFun zeroFun bothMoveState rfl rfl).1

end TrafficSim
